import Mathlib

/-
Verification of the Smart Library seat-booking core (code.py).

The durable store is the CSV file `bookings.csv`. We model it as
`Option (List Record)`: `none` means the file does not exist, `some rows`
means the file exists (header present) and holds `rows` in storage order.

Timestamps (`datetime` values) are modelled as integers at microsecond
resolution, matching CPython's datetime precision; `timedelta(minutes=d)`
is `d * 60_000_000` microseconds.  `strftime("%Y-%m-%d %H:%M:%S")`
followed by `strptime` truncates a timestamp to whole seconds, modelled
by `truncSec`.  Euclidean mod is used so the truncation is a floor on the
whole of `Int`; on the actual domain of datetimes (non-negative
timestamps) this agrees with Python.
-/

namespace SmartLibrary

/-- One CSV row, with the fields typed as the program reads them:
`seat_id` via `int(...)`, `duration` via `int(...)`, `start_time` via
`strptime`, the rest kept as strings. -/
structure Record where
  seat_id : Int
  name : String
  mobile : String
  duration : Int
  entry_time : String
  start_time : Int
  status : String
deriving DecidableEq

/-- The backing CSV file: `none` = the file does not exist. -/
abbrev Store := Option (List Record)

/-- `timedelta(minutes=m)` in microseconds. -/
def minutes (m : Int) : Int := m * 60000000

/-- Truncation of a timestamp to whole seconds, as done by writing
`start_time` with `strftime("%Y-%m-%d %H:%M:%S")` and reading it back. -/
def truncSec (t : Int) : Int := t - Int.emod t 1000000

/-- `end = start + timedelta(minutes=duration)` as computed in
`read_active_bookings`. -/
def endTime (r : Record) : Int := r.start_time + minutes r.duration

/-- The row filter of `read_active_bookings`:
`row["status"] == "Occupied"` and `datetime.now() < end`. -/
def recordActive (now : Int) (r : Record) : Bool :=
  r.status == "Occupied" && decide (now < endTime r)

/-- The value stored in the `active` dict: `(end, name, mobile, entry_time)`. -/
abbrev ActiveInfo := Int × String × String × String

/-- The tuple `(end, row["name"], row["mobile"], row["entry_time"])`. -/
def mkInfo (r : Record) : ActiveInfo := (endTime r, r.name, r.mobile, r.entry_time)

/-- Python-dict assignment `d[k] = v`: overwrites in place, keeping the
key's original position, else appends. -/
def dinsert (k : Int) (v : α) : List (Int × α) → List (Int × α)
  | [] => [(k, v)]
  | (k2, v2) :: t => if k2 = k then (k, v) :: t else (k2, v2) :: dinsert k v t

/-- Python-dict `d.pop(k, None)`: removes the entry for `k` if present. -/
def dremove (k : Int) : List (Int × α) → List (Int × α)
  | [] => []
  | (k2, v2) :: t => if k2 = k then t else (k2, v2) :: dremove k t

/-- `ensure_csv()`: creates the CSV with only the header row if it does
not exist; does nothing otherwise. -/
def ensure_csv : Store → Store
  | none => some []
  | some rows => some rows

/-- The loop body of `read_active_bookings`: insert the row into the
`active` dict when it passes the status/expiry filter. -/
def stepActive (now : Int) (acc : List (Int × ActiveInfo)) (r : Record) :
    List (Int × ActiveInfo) :=
  if recordActive now r then dinsert r.seat_id (mkInfo r) acc else acc

/-- `read_active_bookings()`: returns the dict of currently active
bookings.  If the file does not exist the dict stays empty; otherwise
each row with status `Occupied` and `now < end` is inserted under its
seat id (later rows overwrite earlier ones, as in a Python dict). -/
def read_active_bookings (store : Store) (now : Int) : List (Int × ActiveInfo) :=
  match store with
  | none => []
  | some rows => rows.foldl (stepActive now) []

/-- `add_booking(seat_id, name, mobile, duration, entry_time)`: reads all
rows (none if the file is missing), drops every row whose seat id equals
`seat_id`, appends a fresh `Occupied` row whose `start_time` is the
current wall-clock time rendered at second precision, and rewrites the
whole file. -/
def add_booking (seat_id : Int) (name mobile : String) (duration : Int)
    (entry_time : String) (now : Int) (store : Store) : Store :=
  let rows := match store with
    | none => []
    | some rs => rs.filter (fun r => r.seat_id != seat_id)
  some (rows ++ [⟨seat_id, name, mobile, duration, entry_time, truncSec now, "Occupied"⟩])

/-- `update_booking_status(seat_id, status)`: reads all rows (none if the
file is missing), sets `status` on every row whose seat id matches, and
rewrites the whole file (creating it if it was missing). -/
def update_booking_status (seat_id : Int) (status : String) (store : Store) : Store :=
  let rows := match store with
    | none => []
    | some rs => rs.map (fun r => if r.seat_id = seat_id then { r with status := status } else r)
  some rows

/-- The store effect of `SmartLibraryApp.reset_all` on the confirmed
path: it calls `ensure_csv()` (the in-memory `self.active.clear()` and
UI refreshes do not touch the file). -/
def reset_all (store : Store) : Store := ensure_csv store

/-- The record set the store currently holds (empty when the file is
missing). -/
def records (store : Store) : List Record := store.getD []

/-- Python `str.strip()`: drops leading and trailing whitespace
(ASCII whitespace; Python also strips some further Unicode space
characters, which no claim depends on). -/
def pyStrip (s : String) : String :=
  ⟨((s.data.dropWhile Char.isWhitespace).reverse.dropWhile Char.isWhitespace).reverse⟩

/-- Python `int(s)` on a string, restricted to ASCII digits with an
optional single leading sign (underscore digit grouping is not
modelled; no claim depends on it). `none` models a raised `ValueError`. -/
def parseIntPy (s : String) : Option Int :=
  let l := (pyStrip s).data
  let signed : Int × List Char := match l with
    | '-' :: t => (-1, t)
    | '+' :: t => (1, t)
    | t => (1, t)
  if signed.2 ≠ [] ∧ signed.2.all Char.isDigit then
    some (signed.1 * (signed.2.foldl (fun n c => 10 * n + (c.toNat - 48)) 0 : Nat))
  else none

/-- `SmartLibraryApp.book_seat.confirm`: strips the four entry strings,
parses the duration with `int(...)`, and raises (caught, error popup,
no store write) when the parse fails or name/mobile/entry time is empty;
otherwise calls `add_booking`.  The Bool is `true` iff the booking was
accepted and written. -/
def confirm (seat_id : Int) (nameRaw mobileRaw durationRaw entryRaw : String)
    (now : Int) (store : Store) : Store × Bool :=
  let name := pyStrip nameRaw
  let mobile := pyStrip mobileRaw
  let entry_time := pyStrip entryRaw
  match parseIntPy (pyStrip durationRaw) with
  | none => (store, false)
  | some d =>
      if name = "" ∨ mobile = "" ∨ entry_time = "" then (store, false)
      else (add_booking seat_id name mobile d entry_time now store, true)

/-- Outcome of one pass of `auto_reset_thread`'s inner `for` loop:
the store, the surviving `self.active` cache, and whether an uncaught
exception escaped the loop (killing the daemon thread). -/
structure SweepOutcome where
  store : Store
  cache : List (Int × ActiveInfo)
  crashed : Bool
deriving DecidableEq

/-- The inner `for` loop of `auto_reset_thread` over the snapshot
`list(self.active.items())`.  For each expired item (`now >= end`) it
calls `update_booking_status(seat_id, "Free")` and pops the seat from
the cache.  `fails` says which seats' store writes raise; the loop body
has no try/except, so a raising write aborts the whole pass. -/
def sweepLoop (now : Int) (fails : Int → Bool) :
    List (Int × ActiveInfo) → Store → List (Int × ActiveInfo) → SweepOutcome
  | [], store, cache => ⟨store, cache, false⟩
  | (sid, info) :: rest, store, cache =>
      if now ≥ info.1 then
        if fails sid then ⟨store, cache, true⟩
        else sweepLoop now fails rest (update_booking_status sid "Free" store) (dremove sid cache)
      else sweepLoop now fails rest store cache

/-- One iteration of `auto_reset_thread`'s `while True` body: iterate
over a snapshot of `self.active`, freeing expired seats. -/
def auto_reset_pass (now : Int) (fails : Int → Bool) (store : Store)
    (cache : List (Int × ActiveInfo)) : SweepOutcome :=
  sweepLoop now fails cache store cache

/-! ### Helper lemmas -/

/-- The rightmost element of a list satisfying `p`, if any.  This is the
row whose dict entry survives the fold in `read_active_bookings`. -/
def lastMatch (p : Record → Bool) : List Record → Option Record
  | [] => none
  | r :: t =>
      match lastMatch p t with
      | some x => some x
      | none => if p r then some r else none

theorem lookup_dinsert (k a : Int) (v : α) (m : List (Int × α)) :
    List.lookup a (dinsert k v m) = if a = k then some v else List.lookup a m := by
  induction m with
  | nil =>
      by_cases h : a = k
      · subst h; simp [dinsert, List.lookup]
      · have hb : (a == k) = false := by simpa using h
        simp [dinsert, List.lookup, hb, h]
  | cons hd tl ih =>
      obtain ⟨k2, v2⟩ := hd
      by_cases h1 : k2 = k
      · subst h1
        by_cases h2 : a = k2
        · subst h2; simp [dinsert, List.lookup]
        · have hb : (a == k2) = false := by simpa using h2
          simp [dinsert, List.lookup, hb, h2]
      · by_cases h2 : a = k2
        · subst h2
          simp [dinsert, List.lookup, h1]
        · have hb : (a == k2) = false := by simpa using h2
          simp [dinsert, List.lookup, hb, h1, h2, ih]

theorem lookup_foldl (now : Int) (rows : List Record) :
    ∀ (acc : List (Int × ActiveInfo)) (sid : Int),
      List.lookup sid (rows.foldl (stepActive now) acc) =
        match lastMatch (fun r => r.seat_id == sid && recordActive now r) rows with
        | some r => some (mkInfo r)
        | none => List.lookup sid acc := by
  induction rows with
  | nil => intro acc sid; rfl
  | cons r t ih =>
      intro acc sid
      rw [List.foldl_cons, ih]
      cases hlast : lastMatch (fun r => r.seat_id == sid && recordActive now r) t with
      | some x => simp [lastMatch, hlast]
      | none =>
          simp only [lastMatch, hlast]
          by_cases hact : recordActive now r
          · by_cases hsid : r.seat_id = sid
            · simp [stepActive, hact, lookup_dinsert, hsid]
            · have : (r.seat_id == sid) = false := by simp [hsid]
              simp [stepActive, hact, lookup_dinsert, this, Ne.symm hsid]
          · have : recordActive now r = false := by simp [hact]
            simp [stepActive, this]

theorem lookup_read_active (rows : List Record) (now sid : Int) :
    List.lookup sid (read_active_bookings (some rows) now) =
      (lastMatch (fun r => r.seat_id == sid && recordActive now r) rows).map mkInfo := by
  rw [read_active_bookings, lookup_foldl]
  cases lastMatch (fun r => r.seat_id == sid && recordActive now r) rows <;> rfl

theorem lastMatch_eq_none (p : Record → Bool) (l : List Record) :
    lastMatch p l = none ↔ ∀ r ∈ l, p r = false := by
  induction l with
  | nil => simp [lastMatch]
  | cons r t ih =>
      cases hlast : lastMatch p t with
      | some x =>
          simp only [lastMatch, hlast]
          constructor
          · intro h; cases h
          · intro h
            have : lastMatch p t = none := (ih.mpr fun s hs => h s (List.mem_cons_of_mem r hs))
            rw [hlast] at this; cases this
      | none =>
          simp only [lastMatch, hlast]
          by_cases hp : p r = true
          · simp [hp]
          · have hpf : p r = false := by simpa using hp
            simp only [hpf, if_neg]
            simp only [Bool.false_eq_true, if_false, true_iff]
            intro s hs
            rcases List.mem_cons.mp hs with h | h
            · subst h; exact hpf
            · exact (ih.mp hlast) s h

theorem lastMatch_mem (p : Record → Bool) (l : List Record) (r : Record)
    (h : lastMatch p l = some r) : r ∈ l ∧ p r = true := by
  induction l with
  | nil => cases h
  | cons a t ih =>
      simp only [lastMatch] at h
      cases hlast : lastMatch p t with
      | some x =>
          rw [hlast] at h
          cases h
          obtain ⟨hm, hp⟩ := ih hlast
          exact ⟨List.mem_cons_of_mem a hm, hp⟩
      | none =>
          rw [hlast] at h
          by_cases hp : p a = true
          · rw [if_pos hp] at h
            cases h
            exact ⟨by simp, hp⟩
          · rw [if_neg hp] at h
            cases h

theorem lastMatch_append_singleton (p : Record → Bool) (l : List Record)
    (r : Record) (h : p r = true) : lastMatch p (l ++ [r]) = some r := by
  induction l with
  | nil => simp [lastMatch, h]
  | cons a t ih => simp [lastMatch, ih]

theorem recordActive_iff (now : Int) (r : Record) :
    recordActive now r = true ↔ (r.status = "Occupied" ∧ now < endTime r) := by
  simp [recordActive]

/-- A fixed concrete booking used by witnesses: seat 3, one minute,
booked at timestamp 0. -/
def sampleRecord : Record := ⟨3, "Asha", "9999999999", 1, "10:00", 0, "Occupied"⟩

/-! ### Claims -/

/-- C10: when the backing CSV file does not exist, `read_active_bookings`
returns the empty dict for every `now`, without error, and agrees with
the result over a freshly initialized (header-only) store. -/
theorem c10_missing_store (now : Int) :
    read_active_bookings none now = [] ∧
    read_active_bookings none now = read_active_bookings (ensure_csv none) now :=
  ⟨rfl, rfl⟩

/-- C4: an `Occupied` record is not active at `now = end_time`
(`read_active_bookings` compares with strict `<`), and is active at
every `now` strictly before `end_time`. -/
theorem c4_boundary (r : Record) (h : r.status = "Occupied") :
    read_active_bookings (some [r]) (endTime r) = [] ∧
    ∀ now : Int, now < endTime r →
      List.lookup r.seat_id (read_active_bookings (some [r]) now) = some (mkInfo r) := by
  constructor
  · simp [read_active_bookings, stepActive, recordActive]
  · intro now hnow
    simp [read_active_bookings, stepActive, recordActive, h, hnow, dinsert, List.lookup]

/-- Witness for C4: the sample booking is inactive exactly at its end
time and active at time 0. -/
theorem c4_witness :
    read_active_bookings (some [sampleRecord]) (endTime sampleRecord) = [] ∧
    List.lookup sampleRecord.seat_id (read_active_bookings (some [sampleRecord]) 0)
      = some (mkInfo sampleRecord) :=
  ⟨(c4_boundary sampleRecord rfl).1, (c4_boundary sampleRecord rfl).2 0 (by decide)⟩

/-- C5: `read_active_bookings` returns exactly the rows with status
`Occupied` and `end_time > now`, keyed by seat id: the lookup of a seat
succeeds iff such a row for that seat is in the store, and every
returned value is the `(end, name, mobile, entry_time)` tuple of such a
row.  The function takes the store as a value and returns only the
dict, so it mutates nothing: expired rows stay in the store as they
are. -/
theorem c5_active_characterization (rows : List Record) (now sid : Int) :
    ((List.lookup sid (read_active_bookings (some rows) now)).isSome = true ↔
      ∃ r ∈ rows, r.seat_id = sid ∧ r.status = "Occupied" ∧ now < endTime r) ∧
    ∀ v, List.lookup sid (read_active_bookings (some rows) now) = some v →
      ∃ r ∈ rows, r.seat_id = sid ∧ r.status = "Occupied" ∧ now < endTime r ∧ v = mkInfo r := by
  have hkey : ∀ r : Record,
      ((r.seat_id == sid) && recordActive now r) = true ↔
        (r.seat_id = sid ∧ r.status = "Occupied" ∧ now < endTime r) := by
    intro r; simp [recordActive, and_assoc]
  have main : ∀ v, List.lookup sid (read_active_bookings (some rows) now) = some v →
      ∃ r ∈ rows, r.seat_id = sid ∧ r.status = "Occupied" ∧ now < endTime r ∧ v = mkInfo r := by
    intro v hv
    rw [lookup_read_active] at hv
    cases hlast : lastMatch (fun r => r.seat_id == sid && recordActive now r) rows with
    | none => rw [hlast] at hv; cases hv
    | some x =>
        rw [hlast] at hv
        obtain ⟨hm, hp⟩ := lastMatch_mem _ _ _ hlast
        obtain ⟨h1, h2, h3⟩ := (hkey x).mp hp
        exact ⟨x, hm, h1, h2, h3, (Option.some.inj hv).symm⟩
  refine ⟨⟨fun hs => ?_, fun hex => ?_⟩, main⟩
  · obtain ⟨v, hv⟩ := Option.isSome_iff_exists.mp hs
    obtain ⟨r, hm, h1, h2, h3, _⟩ := main v hv
    exact ⟨r, hm, h1, h2, h3⟩
  · obtain ⟨r, hm, hc⟩ := hex
    rw [lookup_read_active]
    cases hlast : lastMatch (fun r => r.seat_id == sid && recordActive now r) rows with
    | some x => simp
    | none =>
        exfalso
        have hfalse := (lastMatch_eq_none _ _).mp hlast r hm
        rw [(hkey r).mpr hc] at hfalse
        cases hfalse

/-- Witness for C5: at time 0 the lookup of seat 3 in a store holding
the sample booking succeeds. -/
theorem c5_witness :
    (List.lookup 3 (read_active_bookings (some [sampleRecord]) 0)).isSome = true :=
  (c5_active_characterization [sampleRecord] 0 3).1.mpr
    ⟨sampleRecord, by simp, rfl, rfl, by decide⟩

theorem add_booking_records (store : Store) (seat : Int) (nm mb : String)
    (dur : Int) (ent : String) (now : Int) :
    records (add_booking seat nm mb dur ent now store)
      = (records store).filter (fun r => r.seat_id != seat)
        ++ [⟨seat, nm, mb, dur, ent, truncSec now, "Occupied"⟩] := by
  cases store <;> rfl

theorem add_booking_some (store : Store) (seat : Int) (nm mb : String)
    (dur : Int) (ent : String) (now : Int) :
    add_booking seat nm mb dur ent now store
      = some (records (add_booking seat nm mb dur ent now store)) := by
  cases store <;> rfl

theorem now_lt_end (now dur : Int) (h : 0 < dur) :
    now < truncSec now + minutes dur := by
  have h1 : Int.emod now 1000000 < 1000000 := Int.emod_lt_of_pos now (by norm_num)
  have h2 : (0 : Int) ≤ Int.emod now 1000000 := Int.emod_nonneg now (by norm_num)
  have h3 : (60000000 : Int) ≤ dur * 60000000 :=
    le_mul_of_one_le_left (by norm_num) h
  unfold truncSec minutes
  linarith

/-- C6: immediately after `add_booking` with a positive duration, the
seat is in `read_active_bookings(now)` and its reported end time is the
recorded `start_time` (the wall clock truncated to seconds) plus the
duration in minutes. -/
theorem c6_upsert_active (store : Store) (seat : Int) (nm mb : String) (dur : Int)
    (ent : String) (now : Int) (h : 0 < dur) :
    List.lookup seat (read_active_bookings (add_booking seat nm mb dur ent now store) now)
      = some (truncSec now + minutes dur, nm, mb, ent) := by
  rw [add_booking_some, lookup_read_active, add_booking_records,
    lastMatch_append_singleton]
  · rfl
  · have hlt := now_lt_end now dur h
    simp [recordActive, endTime, hlt]

/-- Witness for C6: booking seat 3 for one minute into an empty store at
time 0 makes it active at time 0 with end time one minute later. -/
theorem c6_witness :
    List.lookup 3 (read_active_bookings
        (add_booking 3 "Asha" "9999999999" 1 "10:00" 0 (some [])) 0)
      = some (truncSec 0 + minutes 1, "Asha", "9999999999", "10:00") :=
  c6_upsert_active (some []) 3 "Asha" "9999999999" 1 "10:00" 0 (by decide)

/-- C7: after `add_booking` for a seat, the store holds exactly one
record for that seat — the record just written — and the
at-most-one-record-per-seat invariant is preserved.  This holds for
every prior store, so in particular for a store produced by an earlier
`add_booking` for the same seat: the second call's values are
authoritative. -/
theorem c7_upsert_unique (store : Store) (seat : Int) (nm mb : String) (dur : Int)
    (ent : String) (now : Int) :
    ((records (add_booking seat nm mb dur ent now store)).filter
        (fun r => r.seat_id == seat)).length = 1 ∧
    (records (add_booking seat nm mb dur ent now store)).filter
        (fun r => r.seat_id == seat)
      = [⟨seat, nm, mb, dur, ent, truncSec now, "Occupied"⟩] ∧
    (((records store).map Record.seat_id).Nodup →
      ((records (add_booking seat nm mb dur ent now store)).map Record.seat_id).Nodup) := by
  have hfilter : (records (add_booking seat nm mb dur ent now store)).filter
      (fun r => r.seat_id == seat)
      = [⟨seat, nm, mb, dur, ent, truncSec now, "Occupied"⟩] := by
    rw [add_booking_records, List.filter_append, List.filter_filter]
    have h1 : ((records store).filter
        (fun r => (r.seat_id == seat) && (r.seat_id != seat))) = [] := by
      apply List.filter_eq_nil_iff.mpr
      intro r _
      simp [bne]
    rw [h1]
    simp
  refine ⟨by rw [hfilter]; rfl, hfilter, ?_⟩
  intro hnd
  rw [add_booking_records, List.map_append]
  have hsub : List.Sublist
      (((records store).filter (fun r => r.seat_id != seat)).map Record.seat_id)
      ((records store).map Record.seat_id) :=
    List.Sublist.map _ (List.filter_sublist _)
  refine List.Nodup.append (List.Nodup.sublist hsub hnd) (by simp) ?_
  intro x hx hx2
  simp only [List.map_cons, List.map_nil, List.mem_singleton] at hx2
  obtain ⟨r, hr, hrseat⟩ := List.mem_map.mp hx
  have hne := (List.mem_filter.mp hr).2
  rw [hx2] at hrseat
  simp [bne, hrseat] at hne

/-- Witness for C7: rebooking seat 3 over a store already holding seat 3
preserves the one-record-per-seat invariant. -/
theorem c7_witness :
    ((records (add_booking 3 "B" "8" 2 "11:00" 0 (some [sampleRecord]))).map
        Record.seat_id).Nodup :=
  (c7_upsert_unique (some [sampleRecord]) 3 "B" "8" 2 "11:00" 0).2.2 (by decide)

/-- C9: `update_booking_status` maps every record through "set status if
the seat matches, else keep": it changes only the status field of
matching records, keeps all other fields and all other seats' records
unchanged, and when no record for the seat exists the record set is
unchanged. -/
theorem c9_set_status_frame (store : Store) (seat : Int) (st : String) :
    records (update_booking_status seat st store)
      = (records store).map
          (fun r => if r.seat_id = seat then { r with status := st } else r) ∧
    ((∀ r ∈ records store, r.seat_id ≠ seat) →
      records (update_booking_status seat st store) = records store) := by
  have hmap : records (update_booking_status seat st store)
      = (records store).map
          (fun r => if r.seat_id = seat then { r with status := st } else r) := by
    cases store <;> rfl
  refine ⟨hmap, fun hno => ?_⟩
  rw [hmap]
  have hid : ∀ r ∈ records store,
      (if r.seat_id = seat then { r with status := st } else r) = r := by
    intro r hr
    rw [if_neg (hno r hr)]
  calc (records store).map
        (fun r => if r.seat_id = seat then { r with status := st } else r)
      = (records store).map id := List.map_congr_left hid
    _ = records store := List.map_id _

/-- Witness for C9: freeing seat 7 in a store holding only seat 3
leaves the record set unchanged. -/
theorem c9_witness :
    records (update_booking_status 7 "Free" (some [sampleRecord]))
      = records (some [sampleRecord]) :=
  (c9_set_status_frame (some [sampleRecord]) 7 "Free").2 (by decide)

/-- C8 as stated is false: `reset_all` only runs `ensure_csv`, which is
a no-op on an existing file, so applying it (once or twice) to a store
holding a record does not yield the empty store the claim promises. -/
theorem c8_counterexample :
    reset_all (reset_all (some [sampleRecord])) ≠ some [] := by decide

/-- C8 amended: both operations are idempotent — `set_status(s, Free)`
twice equals once, and `reset_all` twice equals once — but the state
`reset_all` reaches is its input state when the file exists, not the
empty store (see the C1 bug). -/
theorem c8_idempotence (store : Store) (seat : Int) :
    update_booking_status seat "Free" (update_booking_status seat "Free" store)
      = update_booking_status seat "Free" store ∧
    reset_all (reset_all store) = reset_all store := by
  have h1 : ∀ l : List Record, update_booking_status seat "Free" (some l)
      = some (l.map (fun r => if r.seat_id = seat then { r with status := "Free" } else r)) :=
    fun l => rfl
  constructor
  · cases store with
    | none => rfl
    | some rows =>
        rw [h1, h1, List.map_map]
        apply congrArg
        apply List.map_congr_left
        intro r _
        by_cases h : r.seat_id = seat <;> simp [h]
  · cases store <;> rfl

/-- Concrete failing input for C1: five active bookings (seats 1–5,
booked at time 0 for 10 minutes each). -/
def fiveBookings : List Record :=
  [⟨1, "A", "1", 10, "09:00", 0, "Occupied"⟩,
   ⟨2, "B", "2", 10, "09:01", 0, "Occupied"⟩,
   ⟨3, "C", "3", 10, "09:02", 0, "Occupied"⟩,
   ⟨4, "D", "4", 10, "09:03", 0, "Occupied"⟩,
   ⟨5, "E", "5", 10, "09:04", 0, "Occupied"⟩]

/-- C1 fails on the code: `reset_all` calls `ensure_csv`, which does
nothing when the file already exists (its comment says "recreate CSV
with header", but it only creates the file when absent), so after five
active bookings the store keeps all five records and
`read_active_bookings` still reports all five seats. -/
theorem c1_reset_all_does_not_clear :
    reset_all (some fiveBookings) = some fiveBookings ∧
    records (reset_all (some fiveBookings)) ≠ [] ∧
    (read_active_bookings (reset_all (some fiveBookings)) 0).length = 5 := by
  refine ⟨rfl, by decide, by decide⟩

/-- C2 as stated is false on the code: `confirm` checks only that
name/mobile/entry time are non-empty and that the duration parses as an
integer; it never checks positivity, so duration "0" with otherwise
valid fields is accepted and the store is mutated. -/
theorem c2_counterexample :
    (confirm 3 "A" "9" "0" "10:00" 0 (some [])).2 = true ∧
    (confirm 3 "A" "9" "0" "10:00" 0 (some [])).1 ≠ some [] := by
  refine ⟨by decide, by decide⟩

/-- C2 amended: `confirm` rejects with no store mutation exactly when
name, mobile or entry time strips to empty or the duration string does
not parse as an integer; any parsed duration (including zero and
negative values) with non-empty fields is accepted and written via
`add_booking`. -/
theorem c2_rejects_malformed (seat : Int) (nr mr dr er : String) (now : Int)
    (store : Store) :
    ((pyStrip nr = "" ∨ pyStrip mr = "" ∨ pyStrip er = "" ∨
        parseIntPy (pyStrip dr) = none) →
      confirm seat nr mr dr er now store = (store, false)) ∧
    ∀ d, parseIntPy (pyStrip dr) = some d →
      pyStrip nr ≠ "" → pyStrip mr ≠ "" → pyStrip er ≠ "" →
      confirm seat nr mr dr er now store
        = (add_booking seat (pyStrip nr) (pyStrip mr) d (pyStrip er) now store, true) := by
  constructor
  · intro h
    unfold confirm
    cases hp : parseIntPy (pyStrip dr) with
    | none => rfl
    | some d =>
        rcases h with h | h | h | h
        · simp [h]
        · simp [h]
        · simp [h]
        · rw [hp] at h; cases h
  · intro d hd h1 h2 h3
    unfold confirm
    rw [hd]
    simp [h1, h2, h3]

/-- Witness for C2: an empty name is rejected without touching the
store. -/
theorem c2_witness :
    confirm 1 "" "9" "5" "10:00" 0 (some []) = (some [], false) :=
  (c2_rejects_malformed 1 "" "9" "5" "10:00" 0 (some [])).1 (Or.inl (by decide))

/-- C3 as stated is false on the code: `auto_reset_thread` has no
try/except, so when `update_booking_status` raises for an expired seat
the exception escapes the loop and kills the sweeper pass; the store is
left untouched rather than the failure being caught and the loop
continuing. -/
theorem c3_counterexample :
    (auto_reset_pass 100 (fun s => s == 3)
        (some [⟨3, "A", "9", 1, "x", 0, "Occupied"⟩])
        [(3, (50, "A", "9", "x"))]).crashed = true ∧
    (auto_reset_pass 100 (fun s => s == 3)
        (some [⟨3, "A", "9", 1, "x", 0, "Occupied"⟩])
        [(3, (50, "A", "9", "x"))]).store
      = some [⟨3, "A", "9", 1, "x", 0, "Occupied"⟩] := by
  refine ⟨by decide, by decide⟩

/-- C3 amended: store write failures in the sweeper are not caught —
one sweeper pass ends in an uncaught exception (terminating the daemon
thread) iff some snapshot entry is expired (`now ≥ end`) and its seat's
store write fails. -/
theorem c3_crash_characterization (now : Int) (fails : Int → Bool) (store : Store)
    (cache : List (Int × ActiveInfo)) :
    (auto_reset_pass now fails store cache).crashed = true ↔
      ∃ p ∈ cache, now ≥ p.2.1 ∧ fails p.1 = true := by
  have main : ∀ (items : List (Int × ActiveInfo)) (st : Store)
      (c : List (Int × ActiveInfo)),
      (sweepLoop now fails items st c).crashed = true ↔
        ∃ p ∈ items, now ≥ p.2.1 ∧ fails p.1 = true := by
    intro items
    induction items with
    | nil => intro st c; simp [sweepLoop]
    | cons hd rest ih =>
        intro st c
        obtain ⟨sid, info⟩ := hd
        by_cases h1 : now ≥ info.1
        · by_cases h2 : fails sid = true
          · simp only [sweepLoop, if_pos h1, if_pos h2]
            constructor
            · intro _
              exact ⟨(sid, info), List.mem_cons_self _ _, h1, h2⟩
            · intro _; trivial
          · simp only [sweepLoop, if_pos h1, if_neg h2]
            rw [ih]
            constructor
            · rintro ⟨p, hm, hp⟩
              exact ⟨p, List.mem_cons_of_mem _ hm, hp⟩
            · rintro ⟨p, hm, hp⟩
              rcases List.mem_cons.mp hm with rfl | hm2
              · exact absurd hp.2 h2
              · exact ⟨p, hm2, hp⟩
        · simp only [sweepLoop, if_neg h1]
          rw [ih]
          constructor
          · rintro ⟨p, hm, hp⟩
            exact ⟨p, List.mem_cons_of_mem _ hm, hp⟩
          · rintro ⟨p, hm, hp⟩
            rcases List.mem_cons.mp hm with rfl | hm2
            · exact absurd hp.1 h1
            · exact ⟨p, hm2, hp⟩
  exact main cache store cache

/-- Witness for C3 amended: an expired entry whose seat's write fails
crashes the pass. -/
theorem c3_witness :
    (auto_reset_pass 10 (fun s => s == 1) none [(1, (5, "N", "M", "E"))]).crashed
      = true :=
  (c3_crash_characterization 10 (fun s => s == 1) none [(1, (5, "N", "M", "E"))]).mpr
    ⟨(1, (5, "N", "M", "E")), by simp, by decide, by decide⟩

end SmartLibrary
